import Mathlib

/-!
Shallow embedding of `src/DiceGame.js` (a non-transitive dice game with a
commit-reveal fairness protocol), together with theorems checking the
natural-language specification against the code.

Conventions of the embedding:
* `crypto.randomBytes(4).readUInt32BE(0)` is modelled as an arbitrary
  `draw : Nat` with `draw < 2^32 = 4294967296`; the set of possible draws is
  `Finset.range 4294967296`.
* JS exceptions (`throw new Error(...)`) are modelled with `Except String`.
* JS `undefined` appearing as a value is modelled with `Option` (`none`).
* Dice objects are identified with their index in `Game.diceArray`; the source
  only ever compares dice by object identity (`indexOf`, `!==`), and the array
  elements are distinct objects, so index equality is exact.
-/

namespace DiceGame

/-- SecureRandom.generateRandomInteger (DiceGame.js lines 16-23):
`if (range <= 0) throw; const randomValue = randomBytes(4).readUInt32BE(0);
return randomValue % range`.  The 32-bit draw is the explicit argument
`draw`; the function takes the raw draw directly modulo `range` (there is no
rejection / retry loop in the source). -/
def generateRandomInteger (draw range : Nat) : Except String Nat :=
  if range ≤ 0 then Except.error "Range must be a positive integer."
  else Except.ok (draw % range)

deriving instance DecidableEq for Except

/-- Number of 32-bit draws that `generateRandomInteger` maps to the value `v`
for a given `range` (4294967296 = 2^32 possible outputs of `readUInt32BE`). -/
def drawCount (range v : Nat) : Nat :=
  ((Finset.range 4294967296).filter
    (fun draw => generateRandomInteger draw range = Except.ok v)).card

/-- Dice (DiceGame.js lines 30-39): exactly six non-negative integer face
values.  The constructor throws unless `values` is a list of six non-negative
integers; with `Nat` entries the remaining constructor invariant is the
length, recorded as a proof field. -/
structure Dice where
  values : List Nat
  six : values.length = 6

instance : Inhabited Dice := ⟨⟨[0, 0, 0, 0, 0, 0], rfl⟩⟩

/-- Dice.roll (DiceGame.js lines 41-46): `if (index < 0 || index >= length)
throw; return this.values[index]`.  The index is a `Nat` (every call site
produces a non-negative number), so only the upper bound can fail. -/
def Dice.roll (d : Dice) (index : Nat) : Except String Nat :=
  if index < d.values.length then Except.ok (d.values.getD index 0)
  else Except.error "Roll index must be between 0 and 5."

/-- Face value of a dice at an index, as the spec's `dice.face(x)`; on the
indices 0-5 actually used this is exactly what `Dice.roll` returns. -/
def Dice.face (d : Dice) (x : Nat) : Nat := d.values.getD x 0

/-- Probability.calculateProbabilities inner double loop (DiceGame.js lines
62-69): `for x in 0..5, for y in 0..5, if (dice_i.roll(x) > dice_j.roll(y))
winCount++`.  For six-valued dice `roll` never throws and returns
`values[x]`, embedded as `values.getD x 0`. -/
def winCount (a b : Dice) : Nat :=
  (List.range 6).foldl (fun acc x =>
    (List.range 6).foldl (fun acc2 y =>
      if a.values.getD x 0 > b.values.getD y 0 then acc2 + 1 else acc2) acc) 0

/-- Specification-side count: the number of the 36 ordered face-index pairs
`(x, y) ∈ [0,6) × [0,6)` with `dice_i.face(x) > dice_j.face(y)` (ties count
toward neither side, the comparison being strict). -/
def specWinPairs (a b : Dice) : Nat :=
  (((Finset.range 6) ×ˢ (Finset.range 6)).filter
    (fun q => a.face q.1 > b.face q.2)).card

/-- Win probability of `a` over `b`: `winCount / 36` as a rational. -/
def winProb (a b : Dice) : ℚ := (winCount a b : ℚ) / 36

/-- One cell of the matrix built by Probability.calculateProbabilities
(DiceGame.js lines 57-74).  The array is initialised with the number `0`
(`fill(0)`); the diagonal is skipped (`if (i === j) continue`) and keeps that
number (`diag`); every other cell is overwritten with the string
`(winCount / 36).toFixed(4)`, represented by its `winCount` (the rendered
string is `toFixed4Of36 winCount`, below). -/
inductive ProbEntry where
  | diag
  | p (winCount : Nat)
deriving DecidableEq

/-- Left-pad a string with zeros to four characters. -/
def padLeft4 (s : String) : String :=
  String.mk (List.replicate (4 - s.length) '0' ++ s.data)

/-- The string `(k / 36).toFixed(4)` for `0 ≤ k ≤ 36`: round-to-nearest of
`k / 36` at four decimal places (`10000 * k / 36 = 2500 * k / 9` has odd
denominator, so no tie ever occurs and the JS double rounding agrees with
exact rounding; the values `k / 36` nearest a rounding boundary are at
distance at least `1/18` of a ten-thousandth, far above double error). -/
def toFixed4Of36 (k : Nat) : String :=
  toString ((10000 * k + 18) / 36 / 10000) ++ "." ++
    padLeft4 (toString ((10000 * k + 18) / 36 % 10000))

/-- The string the source stores in a matrix cell (diagonal cells hold the
number `0`, rendered `0`). -/
def ProbEntry.display : ProbEntry → String
  | ProbEntry.diag => "0"
  | ProbEntry.p k => toFixed4Of36 k

/-- Probability.calculateProbabilities (DiceGame.js lines 57-74) as the full
matrix; `diceArray.getD i default` embeds `diceArray[i]` (every access in the
loops has `i < diceArray.length`). -/
def calculateProbabilities (diceArray : List Dice) : List (List ProbEntry) :=
  (List.range diceArray.length).map (fun i =>
    (List.range diceArray.length).map (fun j =>
      if i = j then ProbEntry.diag
      else ProbEntry.p
        (winCount (diceArray.getD i default) (diceArray.getD j default))))

/-- Cell access `probabilities[i][j]`; `none` is JS `undefined` (row or
column index out of range). -/
def matrixEntry (m : List (List ProbEntry)) (i j : Nat) : Option ProbEntry :=
  (m.getD i []).get? j

/-- JS `<` on strings: lexicographic comparison of UTF-16 code units; for the
ASCII strings involved here, code units are the characters' code points. -/
def jsLtChars : List Char → List Char → Bool
  | _, [] => false
  | [], _ :: _ => true
  | a :: as, b :: bs =>
    if a.toNat < b.toNat then true
    else if b.toNat < a.toNat then false
    else jsLtChars as bs

/-- JS string comparison `a < b`. -/
def jsStrLt (a b : String) : Bool := jsLtChars a.data b.data

/-- The values the variables `winProbability` / `bestProbability` take in
Game.selectComputerDice (DiceGame.js lines 255-266): the number `-1`
(initial), the number `0` (from `|| 0` when the cell read is `undefined` or
the falsy number `0` on the diagonal), or a stored probability string
`(k / 36).toFixed(4)`, represented by its count `k`. -/
inductive JSProb where
  | num (n : Int)
  | cnt (k : Nat)

/-- JS `>` between two such values.  When both operands are strings JS
compares them lexicographically; otherwise both are converted to numbers
(`Number((k / 36).toFixed(4))` equals `round(10000 * k / 36) / 10000`,
compared here after clearing the denominator 10000). -/
def jsProbGt : JSProb → JSProb → Bool
  | JSProb.num a, JSProb.num b => decide (b < a)
  | JSProb.cnt k, JSProb.num b => decide (10000 * b < (((10000 * k + 18) / 36 : Nat) : Int))
  | JSProb.num a, JSProb.cnt k => decide ((((10000 * k + 18) / 36 : Nat) : Int) < 10000 * a)
  | JSProb.cnt k1, JSProb.cnt k2 => jsStrLt (toFixed4Of36 k2) (toFixed4Of36 k1)

/-- The read `probabilities[index][excludeIndex] || 0` (DiceGame.js line 260):
a negative or out-of-range `excludeIndex` yields `undefined`, which `|| 0`
turns into the number `0`; a diagonal cell holds the falsy number `0`, again
giving `0`; a probability string is non-empty, hence truthy, and is kept. -/
def probRead (mat : List (List ProbEntry)) (index : Nat) (excludeIndex : Int) : JSProb :=
  if 0 ≤ excludeIndex then
    match matrixEntry mat index excludeIndex.toNat with
    | none => JSProb.num 0
    | some ProbEntry.diag => JSProb.num 0
    | some (ProbEntry.p k) => JSProb.cnt k
  else JSProb.num 0

/-- One step of the `forEach` in Game.selectComputerDice (DiceGame.js lines
258-266): skip `index === excludeIndex`, read the probability with `|| 0`,
and replace the best candidate iff strictly greater. -/
def mstep (mat : List (List ProbEntry)) (excludeIndex : Int)
    (best : Option Nat × JSProb) (index : Nat) : Option Nat × JSProb :=
  if (index : Int) ≠ excludeIndex then
    (if jsProbGt (probRead mat index excludeIndex) best.2
     then (some index, probRead mat index excludeIndex) else best)
  else best

/-- The whole `forEach` loop: `bestDice = null; bestProbability = -1;
diceArray.forEach(...)`; the result is the selected dice index (`none` =
`bestDice` still `null`). -/
def selectComputerDiceMedium (diceCount : Nat) (mat : List (List ProbEntry))
    (excludeIndex : Int) : Option Nat :=
  ((List.range diceCount).foldl (mstep mat excludeIndex)
    (none, JSProb.num (-1))).1

/-- Difficulty as set by Game.startGame (input '2' gives medium, anything
else easy). -/
inductive Difficulty where
  | easy
  | medium

/-- Game.selectComputerDice (DiceGame.js lines 250-278).  `excludeIndex?` is
the index of `excludeDice` in `diceArray` (`none` for the `null` default;
`indexOf(null)` is `-1`).  The easy path and the medium fallback build
`availableDice = diceArray.filter(dice => dice !== excludeDice)` and return
`availableDice[generateRandomInteger(availableDice.length)]`; indexing past
the end would give `undefined` (`none`). -/
def selectComputerDice (diceArray : List Dice) (difficulty : Difficulty)
    (excludeIndex? : Option Nat) (draw : Nat) : Except String (Option Nat) :=
  match difficulty with
  | Difficulty.medium =>
    match selectComputerDiceMedium diceArray.length
        (calculateProbabilities diceArray)
        (match excludeIndex? with
         | some i => (i : Int)
         | none => -1) with
    | some i => Except.ok (some i)
    | none =>
      (generateRandomInteger draw
          ((List.range diceArray.length).filter
            (fun i => excludeIndex? ≠ some i)).length).map
        (fun r => ((List.range diceArray.length).filter
          (fun i => excludeIndex? ≠ some i)).get? r)
  | Difficulty.easy =>
    (generateRandomInteger draw
        ((List.range diceArray.length).filter
          (fun i => excludeIndex? ≠ some i)).length).map
      (fun r => ((List.range diceArray.length).filter
        (fun i => excludeIndex? ≠ some i)).get? r)

/-- Specification-side selector: the lowest-index maximiser of `w` among the
indices below `m` other than `e`, scanned in increasing order and replaced
only on strictly greater value — the reference the fold in
`selectComputerDiceMedium` is compared against. -/
def bestIndexBelow (w : Nat → Nat) (e : Nat) : Nat → Option Nat
  | 0 => none
  | m + 1 =>
    if m = e then bestIndexBelow w e m
    else
      match bestIndexBelow w e m with
      | none => some m
      | some i => if w m > w i then some m else some i

/-- Which party moves first. -/
inductive Party where
  | human
  | computer
deriving DecidableEq

/-- JS strict equality `n === v` between a number and a possibly-undefined
field (`undefined` compares unequal to every number). -/
def jsStrictEqNum (n : Nat) (v : Option Nat) : Bool :=
  match v with
  | some m => decide (n = m)
  | none => false

/-- The field `this.computerChoice` read in Game.startGame (DiceGame.js line
166).  The generated choice is stored only in the local `const
computerChoice` (line 155); no statement anywhere in the class assigns
`this.computerChoice`, so the field is `undefined`. -/
def gameFieldComputerChoice : Option Nat := none

/-- The first-mover decision of Game.startGame (DiceGame.js lines 154-172):
`if (Number(userGuess) === this.computerChoice) userMoveFirst() else
computerMoveFirst()`.  `computerChoice` is the local constant the HMAC was
computed over; `fieldComputerChoice` is the value of `this.computerChoice`. -/
def startGameFirstMover (computerChoice userGuess : Nat)
    (fieldComputerChoice : Option Nat) : Party :=
  if jsStrictEqNum userGuess fieldComputerChoice then Party.human
  else Party.computer

/-- The two outcomes Game.playTurns can print (DiceGame.js lines 243-247):
there is no third branch. -/
inductive Outcome where
  | userWins
  | computerWins
deriving DecidableEq

/-- The comparison at the end of Game.playTurns: `if (userDiceRoll >
computerRoll) 'You win!' else 'Computer wins!'`. -/
def throwOutcome (userDiceRoll computerRoll : Nat) : Outcome :=
  if userDiceRoll > computerRoll then Outcome.userWins
  else Outcome.computerWins

/-- The data of one commit-reveal throw in Game.playTurns: the key, the
committed roll index, and the published HMAC digest
(`calculateHMAC(key, rollIndex)` in an honest run, but nothing in the source
ever recomputes or checks it). -/
structure ThrowCommit where
  key : String
  rollIndex : Nat
  hmac : String

/-- One throw (either half of Game.playTurns, lines 199-218 or 222-241): the
accepted user contribution `userThrow` is added to the revealed
`rollIndex` modulo 6 and the thrower's dice is rolled at that index.  The
revealed value is used directly; no verification against `tc.hmac` occurs. -/
def playThrow (dice : Dice) (tc : ThrowCommit) (userThrow : Nat) : Except String Nat :=
  dice.roll ((userThrow + tc.rollIndex) % 6)

/-- Game.playTurns (DiceGame.js lines 196-248) with both user inputs already
validated: the computer's throw on `computerDice`, the user's throw on
`userDice`, then the comparison. -/
def playTurnsResult (userDice computerDice : Dice) (tc1 tc2 : ThrowCommit)
    (u1 u2 : Nat) : Except String Outcome :=
  match playThrow computerDice tc1 u1 with
  | Except.error e => Except.error e
  | Except.ok computerRoll =>
    match playThrow userDice tc2 u2 with
    | Except.error e => Except.error e
    | Except.ok userDiceRoll => Except.ok (throwOutcome userDiceRoll computerRoll)

/-- Numeric value of a digit string (`Number` on a string matching
`^[1-9]\d*$`); 48 is the code point of '0'. -/
def natOfDigits (cs : List Char) : Nat :=
  cs.foldl (fun n c => 10 * n + (c.toNat - 48)) 0

/-- The test `/^(?:[1-9])\d*$/.test(choice)` of Game.selectDice: a non-empty
digit string with no leading zero. -/
def isPosIntString (s : String) : Bool :=
  match s.data with
  | [] => false
  | c :: cs =>
    decide ('1' ≤ c) && decide (c ≤ '9') &&
      cs.all (fun d => decide ('0' ≤ d) && decide (d ≤ '9'))

/-- Game.selectDice (DiceGame.js lines 280-291): accept any input whose
numeric value is between 1 and `diceArray.length`, returning the dice index
`Number(choice) - 1`; `none` means the invalid-selection re-prompt.  The
validation consults only the dice count — no excluded dice is passed in or
checked, in either flow. -/
def selectDice (diceCount : Nat) (choice : String) : Option Nat :=
  if isPosIntString choice ∧ 1 ≤ natOfDigits choice.data ∧
      natOfDigits choice.data ≤ diceCount then
    some (natOfDigits choice.data - 1)
  else none

/-- The dice-selection phase of Game.computerMoveFirst (DiceGame.js lines
183-194): the computer picks with no exclusion, then the user picks via
`selectDice` over the full set.  Result: `(computer index, user index)`;
`none` covers the `process.exit(1)` path and the user re-prompt. -/
def computerFirstPhase (diceArray : List Dice) (difficulty : Difficulty)
    (draw : Nat) (userChoice : String) : Option (Nat × Nat) :=
  match selectComputerDice diceArray difficulty none draw with
  | Except.ok (some ci) =>
    (selectDice diceArray.length userChoice).map (fun ui => (ci, ui))
  | _ => none

/-- What Game.playTurns does with one line of user input at a throw prompt
(DiceGame.js lines 205-210): inputs '0'..'5' are accepted as values; every
other input — including the 'X' the prompt advertises as exit — falls into
the invalid branch, which re-runs `playTurns` (`retry`).  There is no
constructor for an exit transition because the source has no such path. -/
inductive ThrowInput where
  | value (v : Nat)
  | retry
deriving DecidableEq

/-- The validation `['0','1','2','3','4','5'].includes(userThrow)` followed
by `Number(userThrow)`. -/
def parseThrowInput (s : String) : ThrowInput :=
  if s = "0" then ThrowInput.value 0
  else if s = "1" then ThrowInput.value 1
  else if s = "2" then ThrowInput.value 2
  else if s = "3" then ThrowInput.value 3
  else if s = "4" then ThrowInput.value 4
  else if s = "5" then ThrowInput.value 5
  else ThrowInput.retry

/-- The three dice of the spec's end-to-end scenario A. -/
def diceA : Dice := ⟨[2, 2, 4, 4, 9, 9], rfl⟩

/-- Second scenario dice. -/
def diceB : Dice := ⟨[6, 8, 1, 1, 8, 6], rfl⟩

/-- Third scenario dice. -/
def diceC : Dice := ⟨[7, 5, 3, 7, 5, 3], rfl⟩

/-- The scenario dice set. -/
def exSet : List Dice := [diceA, diceB, diceC]

/-! Helper lemmas. -/

lemma ite_add_one {c : Prop} [Decidable c] (t : Nat) :
    (if c then t + 1 else t) = t + (if c then 1 else 0) := by
  split <;> omega

lemma foldl_ite_count {q : Nat → Prop} [DecidablePred q] (l : List Nat) (acc : Nat) :
    l.foldl (fun a y => if q y then a + 1 else a) acc
      = acc + l.countP (fun y => decide (q y)) := by
  induction l generalizing acc with
  | nil => simp
  | cons y ys ih =>
    rw [List.foldl_cons, ih, List.countP_cons]
    by_cases h : q y <;> simp [h] <;> omega

lemma foldl_add_count (g : Nat → Nat) (l : List Nat) (acc : Nat) :
    l.foldl (fun a x => a + g x) acc = acc + (l.map g).sum := by
  induction l generalizing acc with
  | nil => simp
  | cons x xs ih =>
    rw [List.foldl_cons, ih, List.map_cons, List.sum_cons]
    omega

lemma sum_map_range (g : Nat → Nat) (n : Nat) :
    ((List.range n).map g).sum = ∑ x ∈ Finset.range n, g x := by
  induction n with
  | zero => simp
  | succ n ih =>
    rw [List.range_succ, List.map_append, List.sum_append, Finset.sum_range_succ, ih]
    simp

lemma countP_range_eq_sum (q : Nat → Prop) [DecidablePred q] (n : Nat) :
    (List.range n).countP (fun y => decide (q y))
      = ∑ y ∈ Finset.range n, if q y then 1 else 0 := by
  induction n with
  | zero => simp
  | succ n ih =>
    rw [List.range_succ, List.countP_append, ih, Finset.sum_range_succ]
    by_cases h : q n <;> simp [h, List.countP_cons]

lemma winCount_eq (a b : Dice) : winCount a b = specWinPairs a b := by
  unfold winCount specWinPairs
  rw [Finset.card_filter, Finset.sum_product]
  simp only [foldl_ite_count, foldl_add_count, sum_map_range, countP_range_eq_sum,
    Nat.zero_add, Dice.face]

lemma winCount_le_36 (a b : Dice) : winCount a b ≤ 36 := by
  rw [winCount_eq]
  calc specWinPairs a b ≤ ((Finset.range 6) ×ˢ (Finset.range 6)).card :=
        Finset.card_filter_le _ _
    _ = 36 := by rw [Finset.card_product, Finset.card_range]

lemma matrixEntry_calc (diceArray : List Dice) (i j : Nat)
    (hi : i < diceArray.length) (hj : j < diceArray.length) :
    matrixEntry (calculateProbabilities diceArray) i j =
      some (if i = j then ProbEntry.diag
        else ProbEntry.p
          (winCount (diceArray.getD i default) (diceArray.getD j default))) := by
  unfold matrixEntry calculateProbabilities
  rw [List.getD_eq_get?, List.get?_map, List.get?_range hi,
    Option.map_some', Option.getD_some, List.get?_map, List.get?_range hj,
    Option.map_some']

lemma jsProbGt_cnt_negone (k : Nat) :
    jsProbGt (JSProb.cnt k) (JSProb.num (-1)) = true := by
  unfold jsProbGt
  simp only [decide_eq_true_eq]
  omega

lemma jsProbGt_cnt_cnt (k1 k2 : Nat) (h1 : k1 ≤ 36) (h2 : k2 ≤ 36) :
    jsProbGt (JSProb.cnt k1) (JSProb.cnt k2) = decide (k2 < k1) := by
  have hall : ∀ a, a < 37 → ∀ b, b < 37 →
      jsProbGt (JSProb.cnt a) (JSProb.cnt b) = decide (b < a) := by decide
  exact hall k1 (by omega) k2 (by omega)

lemma probRead_negIdx (mat : List (List ProbEntry)) (index : Nat) :
    probRead mat index (-1) = JSProb.num 0 := by
  unfold probRead
  rw [if_neg (by omega)]

lemma probRead_valid (diceArray : List Dice) (e i : Nat)
    (he : e < diceArray.length) (hi : i < diceArray.length) (hie : i ≠ e) :
    probRead (calculateProbabilities diceArray) i (e : Int) =
      JSProb.cnt (winCount (diceArray.getD i default) (diceArray.getD e default)) := by
  unfold probRead
  rw [if_pos (Int.natCast_nonneg e), Int.toNat_natCast,
    matrixEntry_calc diceArray i e hi he, if_neg hie]

lemma bestIndexBelow_succ (w : Nat → Nat) (e m : Nat) :
    bestIndexBelow w e (m + 1) =
      if m = e then bestIndexBelow w e m
      else
        match bestIndexBelow w e m with
        | none => some m
        | some i => if w m > w i then some m else some i := rfl

lemma bestIndexBelow_succ_skip (w : Nat → Nat) (e m : Nat) (hme : m = e) :
    bestIndexBelow w e (m + 1) = bestIndexBelow w e m := by
  rw [bestIndexBelow_succ, if_pos hme]

lemma bestIndexBelow_succ_none (w : Nat → Nat) (e m : Nat) (hme : ¬ m = e)
    (hb : bestIndexBelow w e m = none) :
    bestIndexBelow w e (m + 1) = some m := by
  rw [bestIndexBelow_succ, if_neg hme, hb]

lemma bestIndexBelow_succ_some (w : Nat → Nat) (e m i0 : Nat) (hme : ¬ m = e)
    (hb : bestIndexBelow w e m = some i0) :
    bestIndexBelow w e (m + 1) = if w m > w i0 then some m else some i0 := by
  rw [bestIndexBelow_succ, if_neg hme, hb]

lemma bestIndexBelow_none (w : Nat → Nat) (e : Nat) :
    ∀ m, bestIndexBelow w e m = none → ∀ j, j < m → j = e := by
  intro m
  induction m with
  | zero => intro _ j hj; omega
  | succ m ih =>
    intro h j hj
    by_cases hme : m = e
    · rw [bestIndexBelow_succ_skip w e m hme] at h
      by_cases hjm : j < m
      · exact ih h j hjm
      · omega
    · rcases hb : bestIndexBelow w e m with _ | i0
      · rw [bestIndexBelow_succ_none w e m hme hb] at h
        simp at h
      · rw [bestIndexBelow_succ_some w e m i0 hme hb] at h
        split at h <;> simp at h

lemma bestIndexBelow_mem (w : Nat → Nat) (e : Nat) :
    ∀ m i, bestIndexBelow w e m = some i → i < m ∧ i ≠ e := by
  intro m
  induction m with
  | zero => intro i h; simp [bestIndexBelow] at h
  | succ m ih =>
    intro i h
    by_cases hme : m = e
    · rw [bestIndexBelow_succ_skip w e m hme] at h
      have := ih i h
      omega
    · rcases hb : bestIndexBelow w e m with _ | i0
      · rw [bestIndexBelow_succ_none w e m hme hb] at h
        simp at h
        omega
      · rw [bestIndexBelow_succ_some w e m i0 hme hb] at h
        have hmem0 := ih i0 hb
        split at h <;> simp at h <;> omega

lemma bestIndexBelow_max (w : Nat → Nat) (e : Nat) :
    ∀ m i, bestIndexBelow w e m = some i → ∀ j, j < m → j ≠ e → w j ≤ w i := by
  intro m
  induction m with
  | zero => intro i h; simp [bestIndexBelow] at h
  | succ m ih =>
    intro i h j hj hje
    by_cases hme : m = e
    · rw [bestIndexBelow_succ_skip w e m hme] at h
      exact ih i h j (by omega) hje
    · rcases hb : bestIndexBelow w e m with _ | i0
      · rw [bestIndexBelow_succ_none w e m hme hb] at h
        simp at h
        by_cases hjm : j < m
        · exact absurd (bestIndexBelow_none w e m hb j hjm) hje
        · have hjm2 : j = m := by omega
          rw [hjm2, h]
      · rw [bestIndexBelow_succ_some w e m i0 hme hb] at h
        have hmax0 := ih i0 hb
        split at h <;> rename_i hwm <;> simp at h
        · by_cases hjm : j < m
          · calc w j ≤ w i0 := hmax0 j hjm hje
              _ ≤ w m := le_of_lt hwm
              _ = w i := by rw [h]
          · have hjm2 : j = m := by omega
            rw [hjm2, h]
        · by_cases hjm : j < m
          · rw [← h]
            exact hmax0 j hjm hje
          · have hjm2 : j = m := by omega
            rw [hjm2, ← h]
            omega

lemma bestIndexBelow_first (w : Nat → Nat) (e : Nat) :
    ∀ m i, bestIndexBelow w e m = some i → ∀ j, j < i → j ≠ e → w j < w i := by
  intro m
  induction m with
  | zero => intro i h; simp [bestIndexBelow] at h
  | succ m ih =>
    intro i h j hj hje
    by_cases hme : m = e
    · rw [bestIndexBelow_succ_skip w e m hme] at h
      exact ih i h j hj hje
    · rcases hb : bestIndexBelow w e m with _ | i0
      · rw [bestIndexBelow_succ_none w e m hme hb] at h
        simp at h
        exact absurd (bestIndexBelow_none w e m hb j (by omega)) hje
      · rw [bestIndexBelow_succ_some w e m i0 hme hb] at h
        split at h <;> rename_i hwm <;> simp at h
        · have hji0 : j < m := by
            have := (bestIndexBelow_mem w e m i0 hb).1
            omega
          calc w j ≤ w i0 := bestIndexBelow_max w e m i0 hb j hji0 hje
            _ < w m := hwm
            _ = w i := by rw [h]
        · rw [← h] at hj ⊢
          exact ih i0 hb j hj hje

lemma bestIndexBelow_exists (w : Nat → Nat) (e : Nat) :
    ∀ m, (∃ j, j < m ∧ j ≠ e) → ∃ i, bestIndexBelow w e m = some i := by
  intro m
  induction m with
  | zero => rintro ⟨j, hj, _⟩; omega
  | succ m ih =>
    rintro ⟨j, hj, hje⟩
    by_cases hme : m = e
    · rw [bestIndexBelow_succ_skip w e m hme]
      refine ih ⟨j, ?_, hje⟩
      omega
    · rcases hb : bestIndexBelow w e m with _ | i0
      · exact ⟨m, bestIndexBelow_succ_none w e m hme hb⟩
      · rw [bestIndexBelow_succ_some w e m i0 hme hb]
        by_cases hw : w m > w i0
        · exact ⟨m, if_pos hw⟩
        · exact ⟨i0, if_neg hw⟩

lemma mstep_skip (mat : List (List ProbEntry)) (e : Nat) (s : Option Nat × JSProb) :
    mstep mat (e : Int) s e = s := by
  unfold mstep
  rw [if_neg (by simp)]

lemma mstep_none (diceArray : List Dice) (e m : Nat) (he : e < diceArray.length)
    (hmn : m < diceArray.length) (hme : m ≠ e) :
    mstep (calculateProbabilities diceArray) (e : Int) (none, JSProb.num (-1)) m
      = (some m, JSProb.cnt
          (winCount (diceArray.getD m default) (diceArray.getD e default))) := by
  unfold mstep
  rw [if_pos (by simp [hme]), probRead_valid diceArray e m he hmn hme,
    show ((none, JSProb.num (-1)) : Option Nat × JSProb).2 = JSProb.num (-1) from rfl,
    jsProbGt_cnt_negone]
  simp

lemma mstep_some (diceArray : List Dice) (e m i0 : Nat) (he : e < diceArray.length)
    (hmn : m < diceArray.length) (hme : m ≠ e) :
    mstep (calculateProbabilities diceArray) (e : Int)
      (some i0, JSProb.cnt
        (winCount (diceArray.getD i0 default) (diceArray.getD e default))) m
      = if winCount (diceArray.getD i0 default) (diceArray.getD e default) <
            winCount (diceArray.getD m default) (diceArray.getD e default)
        then (some m, JSProb.cnt
          (winCount (diceArray.getD m default) (diceArray.getD e default)))
        else (some i0, JSProb.cnt
          (winCount (diceArray.getD i0 default) (diceArray.getD e default))) := by
  unfold mstep
  rw [if_pos (by simp [hme]), probRead_valid diceArray e m he hmn hme,
    show ((some i0, JSProb.cnt
      (winCount (diceArray.getD i0 default) (diceArray.getD e default))) :
        Option Nat × JSProb).2 = JSProb.cnt
          (winCount (diceArray.getD i0 default) (diceArray.getD e default)) from rfl,
    jsProbGt_cnt_cnt _ _ (winCount_le_36 _ _) (winCount_le_36 _ _)]
  simp only [decide_eq_true_eq]

lemma mstep_neg_init (mat : List (List ProbEntry)) (m : Nat) :
    mstep mat (-1) (none, JSProb.num (-1)) m = (some m, JSProb.num 0) := by
  unfold mstep
  rw [if_pos (by intro hcon; omega), probRead_negIdx]
  simp [jsProbGt]

lemma mstep_neg_keep (mat : List (List ProbEntry)) (m : Nat) :
    mstep mat (-1) (some 0, JSProb.num 0) m = (some 0, JSProb.num 0) := by
  unfold mstep
  rw [if_pos (by intro hcon; omega), probRead_negIdx]
  simp [jsProbGt]

lemma medium_fold (diceArray : List Dice) (e : Nat) (he : e < diceArray.length) :
    ∀ m, m ≤ diceArray.length →
      (List.range m).foldl (mstep (calculateProbabilities diceArray) (e : Int))
        (none, JSProb.num (-1)) =
      (match bestIndexBelow
          (fun i => winCount (diceArray.getD i default) (diceArray.getD e default))
          e m with
       | none => (none, JSProb.num (-1))
       | some i => (some i, JSProb.cnt
           (winCount (diceArray.getD i default) (diceArray.getD e default)))) := by
  intro m
  induction m with
  | zero => intro _; rfl
  | succ m ih =>
    intro hm
    rw [List.range_succ, List.foldl_append, List.foldl_cons, List.foldl_nil,
      ih (by omega)]
    by_cases hme : m = e
    · rw [bestIndexBelow_succ_skip _ e m hme]
      subst hme
      exact mstep_skip _ m _
    · have hmn : m < diceArray.length := by omega
      rcases hb : bestIndexBelow
          (fun i => winCount (diceArray.getD i default) (diceArray.getD e default))
          e m with _ | i0
      · rw [bestIndexBelow_succ_none _ e m hme hb]
        exact mstep_none diceArray e m he hmn hme
      · rw [bestIndexBelow_succ_some _ e m i0 hme hb]
        by_cases hw : winCount (diceArray.getD m default) (diceArray.getD e default) >
            winCount (diceArray.getD i0 default) (diceArray.getD e default)
        · rw [if_pos hw]
          exact (mstep_some diceArray e m i0 he hmn hme).trans (if_pos hw)
        · rw [if_neg hw]
          exact (mstep_some diceArray e m i0 he hmn hme).trans (if_neg hw)

lemma negone_fold (mat : List (List ProbEntry)) :
    ∀ m, 1 ≤ m →
      (List.range m).foldl (mstep mat (-1)) (none, JSProb.num (-1))
        = (some 0, JSProb.num 0) := by
  intro m
  induction m with
  | zero => intro h; exact absurd h (by omega)
  | succ m ih =>
    intro _
    rw [List.range_succ, List.foldl_append, List.foldl_cons, List.foldl_nil]
    by_cases hm : 1 ≤ m
    · rw [ih hm, mstep_neg_keep]
    · have hm0 : m = 0 := by omega
      subst hm0
      rw [List.range_zero, List.foldl_nil, mstep_neg_init]

lemma drawCount_six (v : Nat) :
    drawCount 6 v = ((Finset.range 4294967296).filter (fun u => u % 6 = v)).card := by
  unfold drawCount
  apply congrArg Finset.card
  apply Finset.filter_congr
  intro u _
  simp [generateRandomInteger]

lemma card_mod_zero :
    ((Finset.range 4294967296).filter (fun u => u % 6 = 0)).card = 715827883 := by
  have himg : (Finset.range 4294967296).filter (fun u => u % 6 = 0)
      = (Finset.range 715827883).image (fun k => 6 * k) := by
    ext u
    simp only [Finset.mem_filter, Finset.mem_range, Finset.mem_image]
    constructor
    · rintro ⟨h1, h2⟩
      exact ⟨u / 6, by omega, by omega⟩
    · rintro ⟨k, hk, rfl⟩
      constructor <;> omega
  rw [himg, Finset.card_image_of_injective _
    (by intro x y h; have h2 : 6 * x = 6 * y := h; omega), Finset.card_range]

lemma card_mod_five :
    ((Finset.range 4294967296).filter (fun u => u % 6 = 5)).card = 715827882 := by
  have himg : (Finset.range 4294967296).filter (fun u => u % 6 = 5)
      = (Finset.range 715827882).image (fun k => 6 * k + 5) := by
    ext u
    simp only [Finset.mem_filter, Finset.mem_range, Finset.mem_image]
    constructor
    · rintro ⟨h1, h2⟩
      exact ⟨u / 6, by omega, by omega⟩
    · rintro ⟨k, hk, rfl⟩
      constructor <;> omega
  rw [himg, Finset.card_image_of_injective _
    (by intro x y h; have h2 : 6 * x + 5 = 6 * y + 5 := h; omega), Finset.card_range]

/-! Claim theorems. -/

/-- C1: refuted as stated — the source takes the raw 32-bit draw directly
modulo `range` with no rejection loop, so for `range = 6` the residues are
not uniform over the `2^32` equally likely draws: value 0 is produced by
715827883 draws while value 5 is produced by only 715827882, so not every
value in `[0, range)` has the same number of draws mapping to it. -/
theorem generateRandomInteger_biased_counts :
    drawCount 6 0 = 715827883 ∧ drawCount 6 5 = 715827882 ∧
      drawCount 6 0 ≠ drawCount 6 5 := by
  have h0 := (drawCount_six 0).trans card_mod_zero
  have h5 := (drawCount_six 5).trans card_mod_five
  exact ⟨h0, h5, by omega⟩

/-- C2: refuted as stated — `startGame` compares the user's guess against
`this.computerChoice`, a field that is never assigned (the committed choice
lives only in the local constant), so the strict equality with `undefined`
is always false and the computer moves first for every committed choice and
every guess; no guess makes the human move first. -/
theorem startGame_computer_always_first (computerChoice userGuess : Nat) :
    startGameFirstMover computerChoice userGuess gameFieldComputerChoice
      = Party.computer := rfl

/-- C3 counterexample: on equal face values (4 and 4) the source declares
the computer the winner; there is no draw outcome, contradicting the claim
that equal values produce an explicit draw. -/
theorem throwOutcome_tie_computerWins :
    throwOutcome 4 4 = Outcome.computerWins := by decide

/-- C3 (amended): the user wins exactly when the user's rolled face value is
strictly greater; in every other case — including equal face values — the
computer is silently declared the winner (the code has no draw outcome). -/
theorem throwOutcome_strict_greater_else_computer (u c : Nat) :
    (throwOutcome u c = Outcome.userWins ↔ c < u) ∧
      (throwOutcome u c = Outcome.computerWins ↔ u ≤ c) := by
  refine ⟨?_, ?_⟩ <;> unfold throwOutcome <;> split <;>
    rename_i h <;> simp <;> omega

/-- C4: refuted on the computer-moves-first flow — with the scenario dice
set, easy difficulty and computer draw 0 the computer selects dice index 0,
and the user's input "1" is accepted by `selectDice` (which checks only the
range, not the exclusion its own prompt announces), yielding the same dice
index 0 for both parties. -/
theorem computerFirstPhase_same_dice :
    computerFirstPhase exSet Difficulty.easy 0 "1" = some (0, 0) := by decide

/-- C5: refuted as stated — `playTurns` never verifies a revealed
`(key, rollIndex)` pair against the published HMAC: the round result is
identical for arbitrary (in particular mismatched) digests, with no
mismatch-abort path in the result type, so verification is not a gate. -/
theorem playTurnsResult_ignores_hmac (userDice computerDice : Dice)
    (k1 k2 h1 h2 h1x h2x : String) (r1 r2 u1 u2 : Nat) :
    playTurnsResult userDice computerDice ⟨k1, r1, h1⟩ ⟨k2, r2, h2⟩ u1 u2 =
      playTurnsResult userDice computerDice ⟨k1, r1, h1x⟩ ⟨k2, r2, h2x⟩ u1 u2 := rfl

/-- C6: with difficulty Medium and an excluded index set, the automated
selection returns a remaining dice index maximising the win probability
`P[d][excluded]` against the excluded dice, taking the lowest index whenever
several remaining dice attain the maximum (the loop replaces the candidate
only on strictly greater probability, and for the stored 4-decimal strings
of counts out of 36 the JS comparison order agrees with the count order). -/
theorem selectComputerDice_medium_argmax (diceArray : List Dice) (e : Nat)
    (hn : 2 ≤ diceArray.length) (he : e < diceArray.length) (draw : Nat) :
    ∃ i, selectComputerDice diceArray Difficulty.medium (some e) draw
        = Except.ok (some i) ∧
      i < diceArray.length ∧ i ≠ e ∧
      (∀ j, j < diceArray.length → j ≠ e →
        winProb (diceArray.getD j default) (diceArray.getD e default) ≤
          winProb (diceArray.getD i default) (diceArray.getD e default)) ∧
      (∀ j, j < i → j ≠ e →
        winProb (diceArray.getD j default) (diceArray.getD e default) <
          winProb (diceArray.getD i default) (diceArray.getD e default)) := by
  have hex : ∃ j, j < diceArray.length ∧ j ≠ e := by
    by_cases he0 : e = 0
    · exact ⟨1, by omega, by omega⟩
    · exact ⟨0, by omega, by omega⟩
  obtain ⟨i, hi⟩ := bestIndexBelow_exists
    (fun i => winCount (diceArray.getD i default) (diceArray.getD e default)) e
    diceArray.length hex
  have hmem := bestIndexBelow_mem _ e diceArray.length i hi
  have hsel : selectComputerDiceMedium diceArray.length
      (calculateProbabilities diceArray) (e : Int) = some i := by
    unfold selectComputerDiceMedium
    rw [medium_fold diceArray e he diceArray.length le_rfl, hi]
  refine ⟨i, ?_, hmem.1, hmem.2, ?_, ?_⟩
  · simp only [selectComputerDice]
    rw [hsel]
  · intro j hj hje
    have hle := bestIndexBelow_max _ e diceArray.length i hi j hj hje
    unfold winProb
    gcongr
  · intro j hj hje
    have hlt := bestIndexBelow_first _ e diceArray.length i hi j hj hje
    unfold winProb
    gcongr

/-- Witness for C6 at the scenario dice set, excluded index 0: the selection
succeeds and returns a strict maximiser with lowest-index tie-breaking. -/
theorem selectComputerDice_medium_argmax_witness :
    ∃ i, selectComputerDice exSet Difficulty.medium (some 0) 0
        = Except.ok (some i) ∧
      i < exSet.length ∧ i ≠ 0 ∧
      (∀ j, j < exSet.length → j ≠ 0 →
        winProb (exSet.getD j default) (exSet.getD 0 default) ≤
          winProb (exSet.getD i default) (exSet.getD 0 default)) ∧
      (∀ j, j < i → j ≠ 0 →
        winProb (exSet.getD j default) (exSet.getD 0 default) <
          winProb (exSet.getD i default) (exSet.getD 0 default)) :=
  selectComputerDice_medium_argmax exSet 0 (by decide) (by decide) 0

/-- C7: refuted as stated — with difficulty Medium and no excluded dice, the
`|| 0` default makes index 0 win the comparison against the initial `-1` and
no later index beats the number 0 again, so the selection deterministically
returns the first dice for every draw; the uniform-random fallback branch of
the source is unreachable and not every dice is a possible result. -/
theorem selectComputerDice_medium_noExclude_first (diceArray : List Dice)
    (draw : Nat) (hn : 1 ≤ diceArray.length) :
    selectComputerDice diceArray Difficulty.medium none draw
      = Except.ok (some 0) := by
  have hsel : selectComputerDiceMedium diceArray.length
      (calculateProbabilities diceArray) (-1) = some 0 := by
    unfold selectComputerDiceMedium
    rw [negone_fold (calculateProbabilities diceArray) diceArray.length hn]
  simp only [selectComputerDice]
  rw [hsel]

/-- Witness for C7 at the scenario dice set and draw 7. -/
theorem selectComputerDice_medium_noExclude_first_witness :
    selectComputerDice exSet Difficulty.medium none 7 = Except.ok (some 0) :=
  selectComputerDice_medium_noExclude_first exSet 7 (by decide)

/-- C8: for every dice set and every ordered pair of indices `i ≠ j` in
range, the matrix cell holds exactly the count of the 36 ordered face-index
pairs with `dice[i].face(x) > dice[j].face(y)` (ties counting toward neither
side), and the stored string renders that count divided by 36 to 4 decimal
places. -/
theorem calculateProbabilities_entry_spec (diceArray : List Dice) (i j : Nat)
    (hi : i < diceArray.length) (hj : j < diceArray.length) (hij : i ≠ j) :
    matrixEntry (calculateProbabilities diceArray) i j =
      some (ProbEntry.p
        (specWinPairs (diceArray.getD i default) (diceArray.getD j default))) ∧
      (matrixEntry (calculateProbabilities diceArray) i j).map ProbEntry.display =
        some (toFixed4Of36
          (specWinPairs (diceArray.getD i default) (diceArray.getD j default))) := by
  have h := matrixEntry_calc diceArray i j hi hj
  rw [if_neg hij, winCount_eq] at h
  refine ⟨h, ?_⟩
  rw [h]
  rfl

/-- Witness for C8 at the spec's scenario A: the cell (C, A) of the example
dice set holds the count 20, displayed as "0.5556" (20 / 36 to 4 decimal
places). -/
theorem calculateProbabilities_entry_spec_witness :
    matrixEntry (calculateProbabilities exSet) 2 0 = some (ProbEntry.p 20) ∧
      (matrixEntry (calculateProbabilities exSet) 2 0).map ProbEntry.display =
        some "0.5556" := by
  have h := calculateProbabilities_entry_spec exSet 2 0 (by decide) (by decide)
    (by decide)
  exact ⟨h.1.trans (by decide), h.2.trans (by decide)⟩

/-- C9: refuted as stated — the advertised exit input "X" is not recognized
at the input-await points of an in-progress round: at a throw prompt it
falls into the invalid branch that re-runs `playTurns` (`retry`), and at the
dice-selection prompt it is an invalid selection that re-prompts (`none`);
neither transitions to a terminal state. -/
theorem exit_input_reprompts :
    parseThrowInput "X" = ThrowInput.retry ∧ selectDice 3 "X" = none := by
  exact ⟨by decide, by decide⟩

/-- C10: for every dice, every accepted user contribution `u < 6` and every
computer value produced by `generateRandomInteger` with range 6, the
combined index `(u + c) % 6` is within the six faces, so `Dice.roll` takes
its success branch. -/
theorem roll_index_in_range (d : Dice) (u draw c : Nat) (hu : u < 6)
    (hc : generateRandomInteger draw 6 = Except.ok c) :
    ∃ v, d.roll ((u + c) % 6) = Except.ok v := by
  have hc6 : draw % 6 = c := by simpa [generateRandomInteger] using hc
  subst hc6
  refine ⟨d.values.getD ((u + draw % 6) % 6) 0, ?_⟩
  unfold Dice.roll
  rw [if_pos]
  rw [d.six]
  exact Nat.mod_lt _ (by omega)

/-- Witness for C10 at concrete inputs: dice A, user value 3, draw 10
(so the computer value is 4). -/
theorem roll_index_in_range_witness :
    ∃ v, diceA.roll ((3 + 4) % 6) = Except.ok v :=
  roll_index_in_range diceA 3 10 4 (by decide) (by decide)

end DiceGame
